import Mathlib

/-!
Verification development for the Amazon Book Analyzer orchestration core
(`src/app.py`).  The Python functions are shallowly embedded as executable
Lean definitions: `json.loads` becomes the fueled recursive-descent parser
`loads`, the regex fallback `re.findall` for the URL pattern becomes
`findURLs`, the four stage functions keep their source names, and the body
of `main` (after the button press) becomes `runPipeline`, which also
records the sequence of prompts sent to the LLM client.
-/

/-! ### Character classes and Python `str.strip` -/

/-- ASCII whitespace stripped by Python `str.strip()` and matched by the
regex class `\s` (space, tab, newline, carriage return, vertical tab,
form feed).  Non-ASCII whitespace is not modelled. -/
def isPyWs (c : Char) : Bool :=
  c = ' ' || c = '\t' || c = '\n' || c = '\r' || c = Char.ofNat 11 || c = Char.ofNat 12

/-- The whitespace skipped between JSON tokens by Python `json.loads`
(only space, tab, newline, carriage return). -/
def isJsonWs (c : Char) : Bool :=
  c = ' ' || c = '\t' || c = '\n' || c = '\r'

/-- Drop leading JSON whitespace. -/
def skipWs : List Char → List Char
  | [] => []
  | c :: cs => if isJsonWs c then skipWs cs else c :: cs

/-- Python `str.strip()` on the character list: drop leading and trailing
whitespace. -/
def stripList (cs : List Char) : List Char :=
  ((cs.dropWhile isPyWs).reverse.dropWhile isPyWs).reverse

/-- Python `str.strip()`. -/
def pyStrip (s : String) : String := String.mk (stripList s.data)

/-! ### The JSON value model

Decoded Python values from `json.loads`.  Numbers keep their source
literal (float formatting on re-serialisation is not modelled; no claim
depends on numeric value arithmetic).  Object members are kept in source
order; duplicate keys are resolved last-wins at lookup time, as in a
Python dict built by repeated assignment. -/

inductive Json where
  | null
  | boolean (b : Bool)
  | num (lit : String)
  | str (s : String)
  | arr (elements : List Json)
  | obj (members : List (String × Json))

/-! ### Strict JSON decoding (`json.loads`) -/

/-- Expect a literal run of characters; return the remainder. -/
def dropLit : List Char → List Char → Option (List Char)
  | [], cs => some cs
  | _ :: _, [] => none
  | p :: ps, c :: cs => if c = p then dropLit ps cs else none

def hexDigitVal (c : Char) : Option Nat :=
  let n := c.toNat
  if 48 ≤ n && n ≤ 57 then some (n - 48)
  else if 65 ≤ n && n ≤ 70 then some (n - 55)
  else if 97 ≤ n && n ≤ 102 then some (n - 87)
  else none

def hex4Val (a b c d : Char) : Option Nat := do
  let x ← hexDigitVal a
  let y ← hexDigitVal b
  let z ← hexDigitVal c
  let w ← hexDigitVal d
  pure (((x * 16 + y) * 16 + z) * 16 + w)

/-- The single-character escapes accepted by strict `json.loads`. -/
def escSimple (c : Char) : Option Char :=
  if c = '\"' then some '\"'
  else if c = '\\' then some '\\'
  else if c = '/' then some '/'
  else if c = 'b' then some (Char.ofNat 8)
  else if c = 'f' then some (Char.ofNat 12)
  else if c = 'n' then some '\n'
  else if c = 'r' then some '\r'
  else if c = 't' then some '\t'
  else none

/-- Parse the body of a JSON string after the opening quote.  Unescaped
control characters are rejected (strict mode).  `\uXXXX` surrogate pairs
are combined; a lone surrogate (representable in a Python `str` but not
as a Unicode scalar / Lean `Char`) is replaced by U+FFFD. -/
def parseStrChars : Nat → List Char → Option (List Char × List Char)
  | 0, _ => none
  | _, [] => none
  | f + 1, c :: rest =>
    if c = '\"' then some ([], rest)
    else if c = '\\' then
      match rest with
      | [] => none
      | e :: rest1 =>
        if e = 'u' then
          match rest1 with
          | a :: b :: c2 :: d :: rest2 =>
            match hex4Val a b c2 d with
            | none => none
            | some n =>
              if 0xD800 ≤ n && n < 0xDC00 then
                match rest2 with
                | '\\' :: 'u' :: a2 :: b2 :: c3 :: d2 :: rest3 =>
                  match hex4Val a2 b2 c3 d2 with
                  | some m =>
                    if 0xDC00 ≤ m && m < 0xE000 then
                      (parseStrChars f rest3).map (fun p =>
                        (Char.ofNat (0x10000 + (n - 0xD800) * 0x400 + (m - 0xDC00)) :: p.1, p.2))
                    else
                      (parseStrChars f rest2).map (fun p => (Char.ofNat 0xFFFD :: p.1, p.2))
                  | none => (parseStrChars f rest2).map (fun p => (Char.ofNat 0xFFFD :: p.1, p.2))
                | _ => (parseStrChars f rest2).map (fun p => (Char.ofNat 0xFFFD :: p.1, p.2))
              else if 0xDC00 ≤ n && n < 0xE000 then
                (parseStrChars f rest2).map (fun p => (Char.ofNat 0xFFFD :: p.1, p.2))
              else
                (parseStrChars f rest2).map (fun p => (Char.ofNat n :: p.1, p.2))
          | _ => none
        else
          match escSimple e with
          | some ch => (parseStrChars f rest1).map (fun p => (ch :: p.1, p.2))
          | none => none
    else if c.toNat < 32 then none
    else (parseStrChars f rest).map (fun p => (c :: p.1, p.2))

/-- Fractional part `(\.\d+)?` of the JSON number regex; returns the
matched characters (possibly none) and the remainder. -/
def parseFrac (cs : List Char) : List Char × List Char :=
  match cs with
  | '.' :: rest =>
    let ds := rest.takeWhile Char.isDigit
    if ds = [] then ([], cs) else ('.' :: ds, rest.dropWhile Char.isDigit)
  | _ => ([], cs)

/-- Exponent part `([eE][+-]?\d+)?` of the JSON number regex. -/
def parseExp (cs : List Char) : List Char × List Char :=
  match cs with
  | [] => ([], cs)
  | c :: rest =>
    if c = 'e' || c = 'E' then
      match rest with
      | [] => ([], c :: rest)
      | s :: rest2 =>
        if s = '+' || s = '-' then
          let ds := rest2.takeWhile Char.isDigit
          if ds = [] then ([], c :: rest) else (c :: s :: ds, rest2.dropWhile Char.isDigit)
        else
          let ds := rest.takeWhile Char.isDigit
          if ds = [] then ([], c :: rest) else (c :: ds, rest.dropWhile Char.isDigit)
    else ([], c :: rest)

/-- Unsigned number per the CPython json regex `(0|[1-9]\d*)(\.\d+)?([eE][+-]?\d+)?`.
Note `0` followed by more digits matches only the `0` (the rest is left
over and rejected by the surrounding context, as in Python). -/
def parseUnsignedNum (cs : List Char) : Option (String × List Char) :=
  match cs with
  | [] => none
  | c :: rest =>
    if c = '0' then
      let (frac, r1) := parseFrac rest
      let (ex, r2) := parseExp r1
      some (String.mk ('0' :: (frac ++ ex)), r2)
    else if c.isDigit then
      let ds := (c :: rest).takeWhile Char.isDigit
      let r0 := (c :: rest).dropWhile Char.isDigit
      let (frac, r1) := parseFrac r0
      let (ex, r2) := parseExp r1
      some (String.mk (ds ++ frac ++ ex), r2)
    else none

/-- Number literal, including the `-Infinity` constant accepted by
Python `json.loads` (as are `NaN` and `Infinity`, handled in
`parseValue`). -/
def parseNumberLit (cs : List Char) : Option (String × List Char) :=
  match cs with
  | [] => none
  | c :: rest =>
    if c = '-' then
      match dropLit ['I', 'n', 'f', 'i', 'n', 'i', 't', 'y'] rest with
      | some r => some ("-Infinity", r)
      | none => (parseUnsignedNum rest).map (fun p => ("-" ++ p.1, p.2))
    else parseUnsignedNum (c :: rest)

/-- Comma-separated array elements, after any leading whitespace, up to
and including the closing bracket.  The nested-value parser is passed as
an argument so that each definition stays individually structurally
recursive (and hence reduces definitionally). -/
def parseElemsWith (pv : List Char → Option (Json × List Char)) :
    Nat → List Char → Option (List Json × List Char)
  | 0, _ => none
  | f + 1, cs =>
    match pv cs with
    | none => none
    | some (v, r1) =>
      match skipWs r1 with
      | [] => none
      | d :: r2 =>
        if d = ',' then (parseElemsWith pv f (skipWs r2)).map (fun p => (v :: p.1, p.2))
        else if d = ']' then some ([v], r2)
        else none

/-- Comma-separated object members up to and including the closing
brace; keys must be JSON strings. -/
def parseMembersWith (pv : List Char → Option (Json × List Char)) :
    Nat → List Char → Option (List (String × Json) × List Char)
  | 0, _ => none
  | f + 1, cs =>
    match cs with
    | [] => none
    | c :: rest =>
      if c = '\"' then
        match parseStrChars (rest.length + 1) rest with
        | none => none
        | some (key, r1) =>
          match skipWs r1 with
          | [] => none
          | d :: r2 =>
            if d = ':' then
              match pv (skipWs r2) with
              | none => none
              | some (v, r3) =>
                match skipWs r3 with
                | [] => none
                | e :: r4 =>
                  if e = ',' then
                    (parseMembersWith pv f (skipWs r4)).map
                      (fun p => ((String.mk key, v) :: p.1, p.2))
                  else if e = Char.ofNat 125 then some ([(String.mk key, v)], r4)
                  else none
            else none
      else none

/-- One JSON value, fueled by the maximal nesting depth.  Dispatch is on
the first character, as in the CPython scanner. -/
def parseValue : Nat → List Char → Option (Json × List Char)
  | 0, _ => none
  | _ + 1, [] => none
  | f + 1, c :: rest =>
    if c = 'n' then (dropLit ['u', 'l', 'l'] rest).map (fun r => (Json.null, r))
    else if c = 't' then (dropLit ['r', 'u', 'e'] rest).map (fun r => (Json.boolean true, r))
    else if c = 'f' then (dropLit ['a', 'l', 's', 'e'] rest).map (fun r => (Json.boolean false, r))
    else if c = 'N' then (dropLit ['a', 'N'] rest).map (fun r => (Json.num "NaN", r))
    else if c = 'I' then
      (dropLit ['n', 'f', 'i', 'n', 'i', 't', 'y'] rest).map (fun r => (Json.num "Infinity", r))
    else if c = '\"' then
      (parseStrChars (rest.length + 1) rest).map (fun p => (Json.str (String.mk p.1), p.2))
    else if c = '[' then
      match skipWs rest with
      | [] => none
      | d :: r2 =>
        if d = ']' then some (Json.arr [], r2)
        else (parseElemsWith (parseValue f) (r2.length + 2) (d :: r2)).map
          (fun p => (Json.arr p.1, p.2))
    else if c = Char.ofNat 123 then
      match skipWs rest with
      | [] => none
      | d :: r2 =>
        if d = Char.ofNat 125 then some (Json.obj [], r2)
        else (parseMembersWith (parseValue f) (r2.length + 2) (d :: r2)).map
          (fun p => (Json.obj p.1, p.2))
    else (parseNumberLit (c :: rest)).map (fun p => (Json.num p.1, p.2))

/-- Strict JSON decoding, modelling Python `json.loads` on `str` input:
leading and trailing whitespace is allowed, trailing non-whitespace data
is an error, and any failure is `none` (a `JSONDecodeError`).  The fuel
`s.length + 1` dominates the nesting depth. -/
def loads (s : String) : Option Json :=
  match parseValue (s.length + 1) (skipWs s.data) with
  | none => none
  | some (v, rest) => if skipWs rest = [] then some v else none

example : loads "[]" = some (Json.arr []) := rfl
example : loads " [1, \"a\", null, true, \x7b\x7d] " =
    some (Json.arr [Json.num "1", Json.str "a", Json.null, Json.boolean true, Json.obj []]) := rfl
example : loads "\x7b\"k\": [2.5e3]\x7d" =
    some (Json.obj [("k", Json.arr [Json.num "2.5e3"])]) := rfl
example : loads "" = none := rfl
example : loads "[1,]" = none := rfl
example : loads "\"a\\nb\"" = some (Json.str "a\nb") := rfl

/-! ### The regex fallback `re.findall(r'https?://[^\s"]+', response)` -/

/-- A character matched by the class `[^\s"]` (anything but whitespace
and a double quote). -/
def urlChar (c : Char) : Bool := !(isPyWs c) && !(c = '\"')

/-- Match `s?://` after a leading `http`, mirroring the regex engine:
if an `s` is present it must be followed by `://` (backtracking to the
empty `s?` branch cannot succeed, since `s` is not `:`). -/
def afterScheme (r1 : List Char) : Option (Bool × List Char) :=
  match r1 with
  | 's' :: r =>
    match dropLit [':', '/', '/'] r with
    | some r2 => some (true, r2)
    | none => none
  | r =>
    match dropLit [':', '/', '/'] r with
    | some r2 => some (false, r2)
    | none => none

/-- Try to match `https?://[^\s"]+` at the head of `cs`; on success
return the matched text and the remainder after the (greedy) match. -/
def tryMatch (cs : List Char) : Option (String × List Char) :=
  match dropLit ['h', 't', 't', 'p'] cs with
  | none => none
  | some r1 =>
    match afterScheme r1 with
    | none => none
    | some (hasS, r2) =>
      let body := r2.takeWhile urlChar
      if body = [] then none
      else
        some (String.mk (['h', 't', 't', 'p'] ++ (if hasS then ['s'] else []) ++
          [':', '/', '/'] ++ body), r2.dropWhile urlChar)

/-- Scan for successive non-overlapping leftmost matches, as
`re.findall` does.  Fuel `cs.length` suffices: a failed position
consumes one character and a match consumes at least eight. -/
def findAux : Nat → List Char → List String
  | 0, _ => []
  | _ + 1, [] => []
  | f + 1, c :: cs =>
    match tryMatch (c :: cs) with
    | some (m, rest) => m :: findAux f rest
    | none => findAux f cs

/-- All matches of `https?://[^\s"]+` in the raw text, in order. -/
def findURLs (s : String) : List String := findAux s.data.length s.data

example : findURLs "See http://x.com/book1 and http://y.com/book2 for details" =
    ["http://x.com/book1", "http://y.com/book2"] := rfl
example : findURLs "xhttps://a/\"q" = ["https://a/"] := rfl
example : findURLs "http:// https://" = [] := rfl

/-! ### Serialisation (`json.dumps`), used when building prompts -/

def hexDigitChar (n : Nat) : Char :=
  if n < 10 then Char.ofNat (48 + n) else Char.ofNat (87 + n)

def hex4 (n : Nat) : String :=
  String.mk [hexDigitChar (n / 4096 % 16), hexDigitChar (n / 256 % 16),
    hexDigitChar (n / 16 % 16), hexDigitChar (n % 16)]

/-- Serialise one character as `json.dumps` does with the default
`ensure_ascii=True` (escape quotes, backslashes, control characters and
everything above `0x7e`). -/
def dumpChar (c : Char) : String :=
  if c = '\"' then "\\\""
  else if c = '\\' then "\\\\"
  else if c = '\n' then "\\n"
  else if c = '\r' then "\\r"
  else if c = '\t' then "\\t"
  else if c = Char.ofNat 8 then "\\b"
  else if c = Char.ofNat 12 then "\\f"
  else if c.toNat < 32 then "\\u" ++ hex4 c.toNat
  else if c.toNat ≤ 126 then String.mk [c]
  else if c.toNat < 65536 then "\\u" ++ hex4 c.toNat
  else
    "\\u" ++ hex4 (55296 + (c.toNat - 65536) / 1024) ++
      "\\u" ++ hex4 (56320 + (c.toNat - 65536) % 1024)

/-- `json.dumps` of a Python `str`. -/
def dumpsString (s : String) : String :=
  "\"" ++ String.join (s.data.map dumpChar) ++ "\""

/-- `json.dumps` of a list of strings (the URL batches embedded in the
detail and review prompts), with the default `", "` separator. -/
def dumpsStrList : List String → String
  | [] => "[]"
  | u :: us => "[" ++ dumpsString u ++ dumpsRest us ++ "]"
where
  dumpsRest : List String → String
    | [] => ""
    | u :: us => ", " ++ dumpsString u ++ dumpsRest us

mutual

/-- `json.dumps` of a decoded JSON value, with default separators.
Numeric literals are emitted verbatim (Python would re-format floats,
e.g. `1e2` as `100.0`; no claim depends on that). -/
def dumpsJson : Json → String
  | Json.null => "null"
  | Json.boolean true => "true"
  | Json.boolean false => "false"
  | Json.num lit => lit
  | Json.str s => dumpsString s
  | Json.arr xs => "[" ++ dumpsJsonList xs ++ "]"
  | Json.obj kvs => "\x7b" ++ dumpsJsonMembers kvs ++ "\x7d"

def dumpsJsonList : List Json → String
  | [] => ""
  | [x] => dumpsJson x
  | x :: y :: xs => dumpsJson x ++ ", " ++ dumpsJsonList (y :: xs)

def dumpsJsonMembers : List (String × Json) → String
  | [] => ""
  | [kv] => dumpsString kv.1 ++ ": " ++ dumpsJson kv.2
  | kv :: kv2 :: kvs => dumpsString kv.1 ++ ": " ++ dumpsJson kv.2 ++ ", " ++
      dumpsJsonMembers (kv2 :: kvs)

end

/-! ### Data model -/

/-- A discovered item, `{"url": url}` in the source. -/
structure ItemReference where
  url : String
deriving DecidableEq

/-- The value produced by `json.loads(response)[:50]`: Python slicing
yields a list when the decoded value is a list and a string when it is a
string (every other decoded type raises a `TypeError` there). -/
inductive SliceResult where
  | list (xs : List Json)
  | str (s : String)

/-- Python `url.startswith("http")`. -/
def startsWithHttp (u : String) : Bool := (dropLit ['h', 't', 't', 'p'] u.data).isSome

/-- The element test of the comprehension on line 58 of `app.py`:
`isinstance(url, str) and url.startswith("http")`, wrapping survivors
as ItemReferences. -/
def keepUrl (url : Json) : Option ItemReference :=
  match url with
  | Json.str u => if startsWithHttp u then some ⟨u⟩ else none
  | _ => none

/-! ### Prompt templates

The f-strings of the source, reproduced byte for byte (the apostrophe is
spliced via `sq` only to keep the file within its lexical conventions). -/

def apos : String := String.singleton (Char.ofNat 39)

def search_prompt (product_name : String) : String :=
  "Search Amazon for books related to " ++ apos ++ product_name ++ apos ++
    ". Return a JSON list of up to 10 book URLs in this exact format: \n" ++
    "    [\"url1\", \"url2\", ...]. \n" ++
    "    Only include books, no other product types. Ensure the response is valid JSON." ++
    " If no books are found, return an empty JSON list []."

def details_prompt (urls : List String) : String :=
  "Get detailed information for these Amazon book URLs including price, description," ++
    " author, publisher, and ISBN:\n    " ++ dumpsStrList urls ++
    "\n    Support up to 50 book URLs and return as JSON. Only process URLs that correspond to books."

def reviews_prompt (urls : List String) : String :=
  "Retrieve detailed customer reviews and ratings for these Amazon book URLs:\n    " ++
    dumpsStrList urls ++
    "\n    Support up to 50 book URLs and return as JSON with review text and rating." ++
    " Only process URLs that correspond to books."

def recommend_prompt (product_data : SliceResult) : String :=
  "Based on this book data:\n    " ++
    (match product_data with
     | SliceResult.list xs => dumpsJson (Json.arr xs)
     | SliceResult.str s => dumpsString s) ++
    "\n    Generate recommendations for book title, features (like genre, length, or" ++
    " target audience), and price."

/-! ### The LLM client (`get_openrouter_response`) -/

/-- The parsing part of `search_related_products` (lines 50-75), applied
to a non-`None` raw response. -/
def search_parse (response : String) : List ItemReference :=
  if pyStrip response = "" then []
  else
    match loads response with
    | some (Json.arr parsed_urls) => (parsed_urls.take 10).filterMap keepUrl
    | some _ => []
    | none => ((findURLs response).take 10).map (fun url => ⟨url⟩)

/-- `search_related_products` (lines 37-75), over an abstract LLM client
`complete` that yields the reply's content string or `None`.  This covers
every reply whose `content` is a string or a caught failure; replies with
a non-string `content` value are modelled by the `_run` variants below,
which compose the stages with `get_openrouter_response` directly. -/
def search_related_products (complete : String → Option String)
    (product_name : String) : List ItemReference :=
  match complete (search_prompt product_name) with
  | none => []
  | some response => search_parse response

/-- The `try: return json.loads(response)[:50] except: return []` body
shared by `get_product_details` and `get_product_reviews`, applied to a
truthy (non-empty) response; the empty string is handled here as well,
matching `if response:`. -/
def records_parse (response : String) : SliceResult :=
  if response = "" then SliceResult.list []
  else
    match loads response with
    | some (Json.arr xs) => SliceResult.list (xs.take 50)
    | some (Json.str s) => SliceResult.str (String.mk (s.data.take 50))
    | some _ => SliceResult.list []
    | none => SliceResult.list []

/-- `get_product_details` (lines 78-89). -/
def get_product_details (complete : String → Option String)
    (urls : List String) : SliceResult :=
  match complete (details_prompt urls) with
  | none => SliceResult.list []
  | some response => records_parse response

/-- `get_product_reviews` (lines 92-103). -/
def get_product_reviews (complete : String → Option String)
    (urls : List String) : SliceResult :=
  match complete (reviews_prompt urls) with
  | none => SliceResult.list []
  | some response => records_parse response

/-- `generate_recommendations` (lines 106-111): the client reply is
returned unparsed (possibly `None`). -/
def generate_recommendations (complete : String → Option String)
    (product_data : SliceResult) : Option String :=
  complete (recommend_prompt product_data)

/-! ### The stages against the raw HTTP world

These variants compose each stage with `get_openrouter_response`
directly, so they also cover the reply whose envelope is intact but
whose `content` value is not a string.  There the client returns that
raw value; what each stage then does with it differs and is modelled
case by case below. -/

inductive PipelineResult where
  | halted
  | completed (related_books : List ItemReference) (book_details : SliceResult)
      (reviews : SliceResult) (recommendations : Option String)

/-- A pipeline run paired with the prompts sent to the LLM client, in
order (each stage function performs exactly one `get_openrouter_response`
call, with the prompt recorded here). -/
structure RunOutcome where
  result : PipelineResult
  calls : List String

/-- The body of `main` after the button press with a non-empty product
name: run the four stages sequentially, halting with the
"No related books found" outcome when stage 1 yields an empty list.
Display logic is presentation and not modelled. -/
def runPipeline (complete : String → Option String) (product_name : String) : RunOutcome :=
  let related_books := search_related_products complete product_name
  if related_books = [] then
    ⟨PipelineResult.halted, [search_prompt product_name]⟩
  else
    let urls := related_books.map ItemReference.url
    let book_details := get_product_details complete urls
    let reviews := get_product_reviews complete urls
    let recommendations := generate_recommendations complete book_details
    ⟨PipelineResult.completed related_books book_details reviews recommendations,
      [search_prompt product_name, details_prompt urls, reviews_prompt urls,
        recommend_prompt book_details]⟩

/-! ### Helper lemmas -/

theorem parseValue_nil (f : Nat) : parseValue f [] = none := by
  cases f <;> rfl

/-- A leading character that is Python whitespace but not JSON
whitespace (vertical tab or form feed) can start no JSON value. -/
theorem parseValue_stuck (f : Nat) (c : Char) (rest : List Char)
    (h1 : isPyWs c = true) (h2 : isJsonWs c = false) :
    parseValue f (c :: rest) = none := by
  have hc : c = Char.ofNat 11 ∨ c = Char.ofNat 12 := by
    simp only [isPyWs, Bool.or_eq_true, decide_eq_true_eq] at h1
    simp only [isJsonWs, Bool.or_eq_true, decide_eq_true_eq] at h2
    rcases h1 with h | h | h | h | h | h <;> simp_all
  rcases hc with h | h <;> subst h <;> cases f <;> rfl

theorem skipWs_of_all_pyWs (cs : List Char) (h : ∀ c ∈ cs, isPyWs c = true) :
    skipWs cs = [] ∨
      ∃ c rest, skipWs cs = c :: rest ∧ isPyWs c = true ∧ isJsonWs c = false := by
  induction cs with
  | nil => exact Or.inl rfl
  | cons c cs ih =>
    by_cases hc : isJsonWs c = true
    · have heq : skipWs (c :: cs) = skipWs cs := by simp [skipWs, hc]
      rw [heq]
      exact ih fun x hx => h x (List.mem_cons_of_mem _ hx)
    · right
      exact ⟨c, cs, by simp [skipWs, hc], h c (List.mem_cons_self c cs),
        by simpa using hc⟩

/-- `json.loads` fails on an empty or whitespace-only document. -/
theorem loads_none_of_all_pyWs (s : String) (h : ∀ c ∈ s.data, isPyWs c = true) :
    loads s = none := by
  unfold loads
  rcases skipWs_of_all_pyWs s.data h with h0 | ⟨c, rest, heq, h1, h2⟩
  · rw [h0, parseValue_nil]
  · rw [heq, parseValue_stuck _ _ _ h1 h2]

theorem stripList_eq_nil_iff (cs : List Char) :
    stripList cs = [] ↔ ∀ c ∈ cs, isPyWs c = true := by
  unfold stripList
  rw [List.reverse_eq_nil_iff, List.dropWhile_eq_nil_iff]
  constructor
  · intro h c hc
    have hmem : c ∈ cs.takeWhile isPyWs ++ cs.dropWhile isPyWs := by
      rw [List.takeWhile_append_dropWhile isPyWs cs]; exact hc
    rcases List.mem_append.mp hmem with h1 | h1
    · exact List.mem_takeWhile_imp h1
    · exact h c (List.mem_reverse.mpr h1)
  · intro h x hx
    have hx2 : x ∈ cs.dropWhile isPyWs := List.mem_reverse.mp hx
    have hx3 : x ∈ cs := (List.dropWhile_sublist isPyWs).subset hx2
    exact h x hx3

theorem pyStrip_eq_empty_iff (s : String) :
    pyStrip s = "" ↔ ∀ c ∈ s.data, isPyWs c = true := by
  rw [String.ext_iff]
  exact stripList_eq_nil_iff s.data

theorem loads_some_strip_ne (s : String) (v : Json) (h : loads s = some v) :
    ¬ pyStrip s = "" := by
  intro he
  rw [loads_none_of_all_pyWs s ((pyStrip_eq_empty_iff s).mp he)] at h
  cases h

theorem findAux_nil_of_all_pyWs (f : Nat) :
    ∀ cs : List Char, (∀ c ∈ cs, isPyWs c = true) → findAux f cs = [] := by
  induction f with
  | zero => intro cs _; rfl
  | succ f ih =>
    intro cs h
    cases cs with
    | nil => rfl
    | cons c cs2 =>
      have hc := h c (List.mem_cons_self c cs2)
      have hch : ¬ c = 'h' := by
        intro hh
        subst hh
        exact absurd hc (by decide)
      have htm : tryMatch (c :: cs2) = none := by
        simp [tryMatch, dropLit, hch]
      simp only [findAux, htm]
      exact ih cs2 fun x hx => h x (List.mem_cons_of_mem _ hx)

/-- The regex fallback finds nothing in a whitespace-only response. -/
theorem findURLs_nil_of_all_pyWs (s : String) (h : ∀ c ∈ s.data, isPyWs c = true) :
    findURLs s = [] :=
  findAux_nil_of_all_pyWs s.data.length s.data h

theorem filterMap_keepUrl_of_all (ys : List String)
    (h : ∀ u ∈ ys, startsWithHttp u = true) :
    (ys.map Json.str).filterMap keepUrl = ys.map (fun u => (⟨u⟩ : ItemReference)) := by
  induction ys with
  | nil => rfl
  | cons u ys ih =>
    have hk : keepUrl (Json.str u) = some ⟨u⟩ := by
      simp [keepUrl, h u (List.mem_cons_self u ys)]
    simp [List.filterMap_cons, hk, ih fun x hx => h x (List.mem_cons_of_mem _ hx)]

/-! ### Claim C1 -/

/-- Modelled from the spec's words for claim C1: "retain only elements
that are strings and begin with an HTTP(S) scheme prefix; truncate to
the first 10; wrap each as an ItemReference" — i.e. filter first, then
truncate.  The source instead truncates the decoded list to 10 elements
before filtering (`parsed_urls[:10]` inside the comprehension). -/
def urlListSpecOrder (xs : List Json) : List ItemReference :=
  (xs.filterMap keepUrl).take 10

/-- Claim C1 (amended): for every raw response that strictly decodes to
a JSON list, the URL-list parse first truncates the decoded list to its
first 10 elements and then retains, in order, those elements that are
strings starting with the prefix "http", wrapped as ItemReferences; in
particular a strict JSON list of at most 10 such URL strings is returned
exactly, in order. -/
theorem claim_C1 (r : String) (xs : List Json) (h : loads r = some (Json.arr xs)) :
    search_parse r = (xs.take 10).filterMap keepUrl
    ∧ ∀ ys : List String, xs = ys.map Json.str →
        (∀ u ∈ ys, startsWithHttp u = true) → ys.length ≤ 10 →
        search_parse r = ys.map (fun u => (⟨u⟩ : ItemReference)) := by
  have hs : ¬ pyStrip r = "" := loads_some_strip_ne r _ h
  have h1 : search_parse r = (xs.take 10).filterMap keepUrl := by
    unfold search_parse
    rw [if_neg hs, h]
  refine ⟨h1, ?_⟩
  intro ys hys hall hlen
  subst hys
  rw [h1, List.take_of_length_le (by simpa using hlen), filterMap_keepUrl_of_all ys hall]

def c1wStr : String := "[\"http://a.com\", \"https://b.com\"]"

/-- Witness for C1: a strict JSON list of two well-formed URLs is
returned exactly, in order. -/
theorem claim_C1_witness :
    loads c1wStr = some (Json.arr [Json.str "http://a.com", Json.str "https://b.com"])
    ∧ search_parse c1wStr = [⟨"http://a.com"⟩, ⟨"https://b.com"⟩] :=
  ⟨rfl, (claim_C1 c1wStr [Json.str "http://a.com", Json.str "https://b.com"] rfl).2
    ["http://a.com", "https://b.com"] rfl (by decide) (by decide)⟩

def c1xStr : String :=
  "[\"nope\"" ++
    String.join ((List.range 10).map (fun i => ", \"http://a.com/" ++ toString i ++ "\"")) ++
    "]"

def c1xElems : List Json :=
  Json.str "nope" :: (List.range 10).map (fun i => Json.str ("http://a.com/" ++ toString i))

set_option maxRecDepth 8192 in
/-- Counterexample to C1 as stated: an 11-element decoded list whose
first element is not a URL.  Filtering before truncating (the claim's
order) keeps all 10 URLs, but the code truncates first and returns only
9, so the claimed output differs from the code's output. -/
theorem claim_C1_counterexample :
    loads c1xStr = some (Json.arr c1xElems)
    ∧ search_parse c1xStr ≠ urlListSpecOrder c1xElems
    ∧ (search_parse c1xStr).length = 9
    ∧ (urlListSpecOrder c1xElems).length = 10 := by
  refine ⟨rfl, ?_, rfl, rfl⟩
  intro heq
  have h9 : (search_parse c1xStr).length = 9 := rfl
  rw [heq, show (urlListSpecOrder c1xElems).length = 10 from rfl] at h9
  cases h9

/-! ### Claim C2 -/

/-- Claim C2 (amended): the textual fallback runs only when strict
decoding fails with a decode error; then the parse returns the first 10
regex matches of `https?://[^\s"]+`, in order, as ItemReferences.  When
strict decoding succeeds with a non-list value the parse returns the
empty list without applying the fallback. -/
theorem claim_C2 (r : String) (h : ∀ xs : List Json, loads r ≠ some (Json.arr xs)) :
    search_parse r =
      (match loads r with
       | none => ((findURLs r).take 10).map (fun url => (⟨url⟩ : ItemReference))
       | some _ => []) := by
  cases hl : loads r with
  | none =>
    by_cases hs : pyStrip r = ""
    · have hws := (pyStrip_eq_empty_iff r).mp hs
      show search_parse r = ((findURLs r).take 10).map fun url => (⟨url⟩ : ItemReference)
      unfold search_parse
      rw [if_pos hs, findURLs_nil_of_all_pyWs r hws]
      rfl
    · show search_parse r = ((findURLs r).take 10).map fun url => (⟨url⟩ : ItemReference)
      unfold search_parse
      rw [if_neg hs, hl]
  | some v =>
    have hs : ¬ pyStrip r = "" := loads_some_strip_ne r v hl
    show search_parse r = []
    unfold search_parse
    rw [if_neg hs, hl]
    cases v with
    | arr xs => exact absurd hl (h xs)
    | null => rfl
    | boolean b => rfl
    | num lit => rfl
    | str s => rfl
    | obj kvs => rfl

def c2wStr : String := "See http://x.com/book1 and http://y.com/book2 for details"

/-- Witness for C2: on a non-JSON response with two embedded URLs the
fallback extracts both, in order. -/
theorem claim_C2_witness :
    loads c2wStr = none
    ∧ search_parse c2wStr =
        (match loads c2wStr with
         | none => ((findURLs c2wStr).take 10).map (fun url => (⟨url⟩ : ItemReference))
         | some _ => [])
    ∧ findURLs c2wStr = ["http://x.com/book1", "http://y.com/book2"]
    ∧ search_parse c2wStr = [⟨"http://x.com/book1"⟩, ⟨"http://y.com/book2"⟩] :=
  ⟨rfl,
    claim_C2 c2wStr (fun xs hx => by rw [show loads c2wStr = none from rfl] at hx; cases hx),
    rfl, rfl⟩

def c2xStr : String := "\"http://a.com/x\""

/-- Counterexample to C2 as stated: this response strictly decodes to a
non-list value (a JSON string), the claim therefore predicts the regex
fallback output (one URL), but the code returns the empty list without
any fallback. -/
theorem claim_C2_counterexample :
    loads c2xStr = some (Json.str "http://a.com/x")
    ∧ search_parse c2xStr = []
    ∧ ((findURLs c2xStr).take 10).map (fun url => (⟨url⟩ : ItemReference)) =
        [⟨"http://a.com/x"⟩] :=
  ⟨rfl, rfl, rfl⟩

/-! ### Claim C3 -/

/-- Discriminator: does the Python value returned by a record stage have
list type? -/
def SliceResult.isListVal : SliceResult → Bool
  | SliceResult.list _ => true
  | SliceResult.str _ => false

/-- Claim C3 fails on the code: when the response decodes to a JSON
string, `json.loads(response)[:50]` slices the string (slicing is valid
on `str`), so the stage returns a string — not an empty list — for a
non-list decode.  This theorem evaluates the embedded code at the
failing input `"hello"` (a JSON-encoded string). -/
theorem claim_C3 :
    get_product_details (fun _ => some "\"hello\"") [] = SliceResult.str "hello"
    ∧ get_product_reviews (fun _ => some "\"hello\"") [] = SliceResult.str "hello"
    ∧ (get_product_details (fun _ => some "\"hello\"") []).isListVal = false :=
  ⟨rfl, rfl, rfl⟩

/-! ### Claim C4 -/

/-- Claim C4: if the Discover stage yields an empty list the pipeline
halts with the "no related items found" outcome, and the only LLM call
of the whole run is the Discover stage's call — the Detail, Review and
Recommend stages are never invoked. -/
theorem claim_C4 (complete : String → Option String) (q : String)
    (h : search_related_products complete q = []) :
    runPipeline complete q = ⟨PipelineResult.halted, [search_prompt q]⟩ := by
  simp [runPipeline, h]

/-- Witness for C4: a client that answers the empty JSON list. -/
theorem claim_C4_witness :
    search_related_products (fun _ => some "[]") "Dune" = []
    ∧ runPipeline (fun _ => some "[]") "Dune" =
        ⟨PipelineResult.halted, [search_prompt "Dune"]⟩ :=
  ⟨rfl, claim_C4 (fun _ => some "[]") "Dune" rfl⟩

/-! ### Claim C5 -/

/-- Claim C5: whenever the record-list response strictly decodes to a
JSON list, both the Detail and the Review stage truncate it to its
first 50 entries, whatever the original length. -/
theorem claim_C5 (complete : String → Option String) (urls : List String)
    (r : String) (xs : List Json)
    (hd : complete (details_prompt urls) = some r)
    (hr : complete (reviews_prompt urls) = some r)
    (h : loads r = some (Json.arr xs)) :
    get_product_details complete urls = SliceResult.list (xs.take 50)
    ∧ get_product_reviews complete urls = SliceResult.list (xs.take 50)
    ∧ (xs.take 50).length = min 50 xs.length := by
  have hne : ¬ r = "" := by
    intro he
    subst he
    rw [show loads "" = none from rfl] at h
    cases h
  have hp : records_parse r = SliceResult.list (xs.take 50) := by
    unfold records_parse
    rw [if_neg hne, h]
  refine ⟨?_, ?_, List.length_take ..⟩
  · unfold get_product_details
    rw [hd]
    exact hp
  · unfold get_product_reviews
    rw [hr]
    exact hp

/-- A response of 75 valid JSON objects. -/
def s75 : String := "[" ++ String.intercalate "," (List.replicate 75 "\x7b\x7d") ++ "]"

set_option maxRecDepth 16384 in
/-- Witness for C5: the 75-object response is truncated to exactly its
first 50 entries. -/
theorem claim_C5_witness :
    loads s75 = some (Json.arr (List.replicate 75 (Json.obj [])))
    ∧ get_product_details (fun _ => some s75) [] =
        SliceResult.list (List.replicate 50 (Json.obj []))
    ∧ (List.replicate 50 (Json.obj [])).length = 50 := by
  refine ⟨rfl, ?_, rfl⟩
  have h := (claim_C5 (fun _ => some s75) [] s75 (List.replicate 75 (Json.obj []))
    rfl rfl rfl).1
  rw [show (List.replicate 75 (Json.obj [])).take 50 = List.replicate 50 (Json.obj [])
    from rfl] at h
  exact h

/-! ### Claim C6 -/

/-- Claim C7: an empty or whitespace-only raw response yields the empty
list under both parse shapes (`search_parse` for the URL-list shape,
`records_parse` for the record-list shape shared by the Detail and
Review stages), and nothing is raised. -/
theorem claim_C7 (r : String) (h : ∀ c ∈ r.data, isPyWs c = true) :
    search_parse r = [] ∧ records_parse r = SliceResult.list [] := by
  have hs : pyStrip r = "" := (pyStrip_eq_empty_iff r).mpr h
  constructor
  · unfold search_parse
    rw [if_pos hs]
  · by_cases he : r = ""
    · subst he
      rfl
    · unfold records_parse
      rw [if_neg he, loads_none_of_all_pyWs r h]

/-- Witness for C7 on a whitespace-only response. -/
theorem claim_C7_witness :
    search_parse " \n\t " = [] ∧ records_parse " \n\t " = SliceResult.list [] :=
  claim_C7 " \n\t " (by decide)

/-! ### Claim C8 -/

/-- Claim C8: when the Discover stage is non-empty the pipeline always
reaches the Completed terminal state — with no assumption on the Detail
stage's output, so an empty Detail result is non-fatal and the Review
and Recommend stages still run — and the Recommend stage's prompt is
built from the Detail stage's output (`recommend_prompt` applied to
`get_product_details ...`), not from the Review stage's. -/
theorem claim_C8 (complete : String → Option String) (q : String)
    (h : ¬ search_related_products complete q = []) :
    runPipeline complete q =
      ⟨PipelineResult.completed (search_related_products complete q)
        (get_product_details complete
          ((search_related_products complete q).map ItemReference.url))
        (get_product_reviews complete
          ((search_related_products complete q).map ItemReference.url))
        (generate_recommendations complete
          (get_product_details complete
            ((search_related_products complete q).map ItemReference.url))),
       [search_prompt q,
        details_prompt ((search_related_products complete q).map ItemReference.url),
        reviews_prompt ((search_related_products complete q).map ItemReference.url),
        recommend_prompt (get_product_details complete
          ((search_related_products complete q).map ItemReference.url))]⟩ := by
  simp [runPipeline, h]

/-- A deterministic mock client: the Discover prompt (recognised by its
leading "Search") gets one URL, every other prompt gets a non-JSON
reply, so the Detail stage output is empty. -/
def c8client : String → Option String := fun p =>
  match dropLit ['S', 'e', 'a', 'r', 'c', 'h'] p.data with
  | some _ => some "[\"http://a.com\"]"
  | none => some "plain"

/-- Witness for C8: with an empty Detail result the pipeline still
completes, and the fourth prompt is the Recommend prompt built from the
Detail output. -/
theorem claim_C8_witness :
    ¬ search_related_products c8client "x" = []
    ∧ get_product_details c8client
        ((search_related_products c8client "x").map ItemReference.url) =
        SliceResult.list []
    ∧ runPipeline c8client "x" =
      ⟨PipelineResult.completed (search_related_products c8client "x")
        (get_product_details c8client
          ((search_related_products c8client "x").map ItemReference.url))
        (get_product_reviews c8client
          ((search_related_products c8client "x").map ItemReference.url))
        (generate_recommendations c8client
          (get_product_details c8client
            ((search_related_products c8client "x").map ItemReference.url))),
       [search_prompt "x",
        details_prompt ((search_related_products c8client "x").map ItemReference.url),
        reviews_prompt ((search_related_products c8client "x").map ItemReference.url),
        recommend_prompt (get_product_details c8client
          ((search_related_products c8client "x").map ItemReference.url))]⟩ :=
  ⟨by decide, rfl, claim_C8 c8client "x" (by decide)⟩

/-! ### Claim C9 -/

/-- Claim C9: the pipeline is deterministic — two runs against the same
deterministic client (clients equal as functions from prompts to
replies) on the same query produce identical outcomes, including the
terminal state and all payloads. -/
theorem claim_C9 (client1 client2 : String → Option String) (q : String)
    (h : ∀ p, client1 p = client2 p) :
    runPipeline client1 q = runPipeline client2 q := by
  rw [funext h]

/-- Witness for C9 at a concrete client and query. -/
theorem claim_C9_witness :
    runPipeline (fun _ => some "[]") "Dune" = runPipeline (fun _ => some "[]") "Dune" :=
  claim_C9 (fun _ => some "[]") (fun _ => some "[]") "Dune" (fun _ => rfl)

/-! ### Claim C10 -/

/-- Claim C10: the record-list stages perform no per-element validation:
whenever the response strictly decodes to a JSON list, the first up to
50 decoded elements are returned exactly as decoded — whatever their
types — with no filtering or reshaping (position by position the output
equals the decoded input). -/
theorem claim_C10 (complete : String → Option String) (urls : List String)
    (r : String) (xs : List Json)
    (hd : complete (details_prompt urls) = some r)
    (hr : complete (reviews_prompt urls) = some r)
    (h : loads r = some (Json.arr xs)) :
    get_product_details complete urls = SliceResult.list (xs.take 50)
    ∧ get_product_reviews complete urls = SliceResult.list (xs.take 50)
    ∧ ∀ i : Nat, i < 50 → (xs.take 50)[i]? = xs[i]? := by
  have hne : ¬ r = "" := by
    intro he
    subst he
    rw [show loads "" = none from rfl] at h
    cases h
  have hp : records_parse r = SliceResult.list (xs.take 50) := by
    unfold records_parse
    rw [if_neg hne, h]
  refine ⟨?_, ?_, fun i hi => List.getElem?_take_of_lt hi⟩
  · unfold get_product_details
    rw [hd]
    exact hp
  · unfold get_product_reviews
    rw [hr]
    exact hp

/-- A decoded list mixing objects, strings, numbers, null, booleans and
a nested list. -/
def c10str : String := "[\x7b\x7d, \"s\", 3, null, true, [1]]"

def c10elems : List Json :=
  [Json.obj [], Json.str "s", Json.num "3", Json.null, Json.boolean true,
    Json.arr [Json.num "1"]]

/-- Witness for C10: the mixed-type list is returned exactly as decoded
by both record stages. -/
theorem claim_C10_witness :
    loads c10str = some (Json.arr c10elems)
    ∧ get_product_details (fun _ => some c10str) [] = SliceResult.list (c10elems.take 50)
    ∧ get_product_reviews (fun _ => some c10str) [] = SliceResult.list (c10elems.take 50) := by
  refine ⟨rfl, ?_, ?_⟩
  · exact (claim_C10 (fun _ => some c10str) [] c10str c10elems rfl rfl rfl).1
  · exact (claim_C10 (fun _ => some c10str) [] c10str c10elems rfl rfl rfl).2.1
